import Mathlib

/-!
Verification of the differential RPC conformance-testing engine found in
`src/tool/subcommands/api_cmd.rs` (the `forest-tool api compare` subcommand).

The Rust code is shallowly embedded: JSON payloads are abstracted to a type
parameter `V`, deserialization (`serde_json::from_value::<T::LotusJson>`) to a
partial decoding function `V → Option LJ`, and the chain archive to explicit
data carried by tipset/block structures. Everything else (the status
classifier, the arbitration rule in `RpcTest::run`, the filter list, the
result aggregation of `run_tests`, the dynamic generator `snapshot_tests`,
and `derive_protocol`) is translated arm by arm from the source.
-/

namespace ForestApiCompare

/-- Case-sensitive substring containment on character lists:
`containsSub needle hay` holds when `needle` occurs contiguously in `hay`.
This models Rust's `str::contains` with a string pattern. -/
def containsSub (needle : List Char) : List Char → Bool
  | [] => needle.isEmpty
  | c :: t => needle.isPrefixOf (c :: t) || containsSub needle t

/-- Model of Rust's `hay.contains(needle)`: `strContains hay needle`. -/
def strContains (hay needle : String) : Bool :=
  containsSub needle.data hay.data

/-- The seven-status vocabulary of `EndpointStatus` in `api_cmd.rs`. -/
inductive EndpointStatus where
  | MissingMethod
  | InvalidRequest
  | InternalServerError
  | InvalidJSON
  | InvalidResponse
  | Timeout
  | Valid
deriving DecidableEq, Repr

/-- Modelled from the spec: `JsonRpcError` is defined in the `rpc_client`
module, which is not among the sources under verification. The spec requires
an RPC error to expose a classification signal (a numeric JSON-RPC error
code) and a human-readable message; equality is structural on both fields,
matching the derived `PartialEq` used by the `forest_err == lotus_err` guard
in `RpcTest::run`. -/
structure JsonRpcError where
  code : Int
  message : String
deriving DecidableEq, Repr

/-- Modelled from the spec: standard JSON-RPC code for a parse error, the
value behind `jsonrpsee::types::ErrorCode::ParseError`. -/
def parseErrorCode : Int := -32700

/-- Modelled from the spec: code behind `ErrorCode::OversizedRequest`. -/
def oversizedRequestCode : Int := -32701

/-- Modelled from the spec: code behind `ErrorCode::InvalidRequest`. -/
def invalidRequestCode : Int := -32600

/-- Modelled from the spec: code behind `ErrorCode::MethodNotFound`. -/
def methodNotFoundCode : Int := -32601

/-- Translation of `EndpointStatus::from_json_error`, arm by arm from the `match`
on `err.known_code()`. The `known_code` conversion (not under the verified
sources) is modelled as the standard JSON-RPC code table above; the timeout
guard `it.code() == 0 && it.message().contains("timed out")` is read, as the
spec does, as testing the error's code and message. -/
def EndpointStatus.from_json_error (err : JsonRpcError) : EndpointStatus :=
  if err.code = parseErrorCode then .InvalidResponse
  else if err.code = oversizedRequestCode then .InvalidRequest
  else if err.code = invalidRequestCode then .InvalidRequest
  else if err.code = methodNotFoundCode then .MissingMethod
  else if err.code = 0 ∧ strContains err.message "timed out" = true then .Timeout
  else .InternalServerError

/-- The `RpcTest` record. The request payload is dropped (its method name and
timeout reappear where the claims need them); the two validator closures are
kept, over an abstract JSON-value type `V`. -/
structure RpcTest (V : Type) where
  checkSyntax : V → Bool
  checkSemantics : V → V → Bool
  ignoreReason : Option String

/-- Rust `RpcTest::basic`: syntax check is deserializability into the expected
shape (`decodeLJ` models `serde_json::from_value::<T::LotusJson>`), semantic
check is trivially true. -/
def RpcTest.basic {V LJ : Type} (decodeLJ : V → Option LJ) : RpcTest V :=
  { checkSyntax := fun value => (decodeLJ value).isSome
    checkSemantics := fun _ _ => true
    ignoreReason := none }

/-- Rust `RpcTest::validate`: syntax check as in `basic`; the semantic check
re-decodes both raw values (`is_ok_and`, hence `false` on decode failure),
converts with `from_lotus_json`, and applies the custom predicate. -/
def RpcTest.validate {V LJ T : Type} (decodeLJ : V → Option LJ)
    (from_lotus_json : LJ → T) (validate : T → T → Bool) : RpcTest V :=
  { checkSyntax := fun value => (decodeLJ value).isSome
    checkSemantics := fun forest_json lotus_json =>
      match decodeLJ forest_json with
      | some forest =>
        match decodeLJ lotus_json with
        | some lotus => validate (from_lotus_json forest) (from_lotus_json lotus)
        | none => false
      | none => false
    ignoreReason := none }

/-- Rust `RpcTest::identity`: `validate` specialized to strict equality. -/
def RpcTest.identity {V LJ T : Type} [DecidableEq T] (decodeLJ : V → Option LJ)
    (from_lotus_json : LJ → T) : RpcTest V :=
  RpcTest.validate decodeLJ from_lotus_json (fun forest lotus => decide (forest = lotus))

/-- The per-side status a response receives in the fall-through arm of
`RpcTest::run`: `resp.map_or_else(EndpointStatus::from_json_error, |value| ...)`. -/
def sideStatus {V : Type} (test : RpcTest V) (resp : Except JsonRpcError V) :
    EndpointStatus :=
  match resp with
  | .error e => EndpointStatus.from_json_error e
  | .ok value => if test.checkSyntax value then .Valid else .InvalidJSON

/-- The arbitration core of `RpcTest::run`, as a function of the two raw
responses. The first Rust arm `(Ok, Ok)` is guarded by both syntax checks;
the second arm `(Err, Err)` is guarded by `forest_err == lotus_err`; a failed
guard falls through to the catch-all arm computing `sideStatus` per side. -/
def RpcTest.run {V : Type} (test : RpcTest V)
    (forest_resp lotus_resp : Except JsonRpcError V) :
    EndpointStatus × EndpointStatus :=
  match forest_resp, lotus_resp with
  | .ok forest, .ok lotus =>
    if test.checkSyntax forest && test.checkSyntax lotus then
      ((if test.checkSemantics forest lotus then .Valid else .InvalidResponse),
        EndpointStatus.Valid)
    else
      (sideStatus test (.ok forest), sideStatus test (.ok lotus))
  | .error forest_err, .error lotus_err =>
    if forest_err = lotus_err then (.Valid, .Valid)
    else (sideStatus test (.error forest_err), sideStatus test (.error lotus_err))
  | forest_resp, lotus_resp =>
    (sideStatus test forest_resp, sideStatus test lotus_resp)

/-- The `FilterList` record: allow and reject substring rules. -/
structure FilterList where
  allow : List String
  reject : List String
deriving DecidableEq, Repr

/-- Rust `FilterList::default()`. -/
def FilterList.empty : FilterList := { allow := [], reject := [] }

/-- Rust `FilterList::authorize`: authorized iff (allow list empty, or the name
contains some allow entry) and the name contains no reject entry. -/
def FilterList.authorize (self : FilterList) (entry : String) : Bool :=
  (self.allow.isEmpty || self.allow.any (fun a => strContains entry a))
    && !(self.reject.any (fun r => strContains entry r))

/-- Rust `FilterList::allow`, the builder pushing one allow entry. -/
def FilterList.pushAllow (self : FilterList) (entry : String) : FilterList :=
  { self with allow := self.allow ++ [entry] }

/-- Rust `FilterList::reject`, the builder pushing one reject entry. -/
def FilterList.pushReject (self : FilterList) (entry : String) : FilterList :=
  { self with reject := self.reject ++ [entry] }

/-- The filter list `run_tests` constructs when no filter file is given:
`FilterList::default().allow(config.filter.clone())`. -/
def run_tests_inline_filter (filter : String) : FilterList :=
  FilterList.empty.pushAllow filter

/-- A result triple `(method_name, forest_status, lotus_status)` as reported
by one spawned test in `run_tests`. -/
abbrev ResultEntry := String × EndpointStatus × EndpointStatus

/-- A counting map `(method, statusSUT, statusRef) -> occurrence count`,
modelled as an association list without duplicate keys by construction (the
iteration order of the Rust `HashMap` is irrelevant to the claims). -/
abbrev CountMap := List (ResultEntry × Nat)

/-- Rust `map.entry(k).and_modify(|v| *v += 1).or_insert(1u32)`. -/
def bump (m : CountMap) (k : ResultEntry) : CountMap :=
  match m with
  | [] => [(k, 1)]
  | (k', v) :: rest => if k' = k then (k', v + 1) :: rest else (k', v) :: bump rest k

/-- The count stored for key `k` (0 when absent). -/
def countOf (m : CountMap) (k : ResultEntry) : Nat :=
  match m with
  | [] => 0
  | (k', v) :: rest => if k' = k then v else countOf rest k

/-- The success-bucket predicate of `run_tests`: both statuses `Valid`, or
both statuses `Timeout`. -/
def isSuccessEntry (e : ResultEntry) : Bool :=
  (e.2.1 == EndpointStatus.Valid && e.2.2 == EndpointStatus.Valid)
    || (e.2.1 == EndpointStatus.Timeout && e.2.2 == EndpointStatus.Timeout)

/-- The result-consumption loop of `run_tests`: each arriving result is
inserted into the success or failure bucket; after the insertion, consumption
stops when the failure bucket is non-empty and `fail_fast` is set. -/
def consumeResults (fail_fast : Bool) :
    List ResultEntry → CountMap → CountMap → CountMap × CountMap
  | [], success_results, failed_results => (success_results, failed_results)
  | e :: rest, success_results, failed_results =>
    let pair :=
      if isSuccessEntry e then (bump success_results e, failed_results)
      else (success_results, bump failed_results e)
    if !pair.2.isEmpty && fail_fast then pair
    else consumeResults fail_fast rest pair.1 pair.2

/-- Rust `HashMap::insert`: set key `k` to `v`, replacing any previous binding. -/
def setKey (m : CountMap) (k : ResultEntry) (v : Nat) : CountMap :=
  match m with
  | [] => [(k, v)]
  | (k', v') :: rest => if k' = k then (k', v) :: rest else (k', v') :: setKey rest k v

/-- The `combined_results` loop of `print_test_results`: clone the success
map and insert every failed binding into it. -/
def combineResults (success failed : CountMap) : CountMap :=
  match failed with
  | [] => success
  | (k, v) :: rest => combineResults (setKey success k v) rest

/-- Variant index of `EndpointStatus`, the order used by the derived Rust
`Ord` instance when results are sorted for display. -/
def EndpointStatus.idx : EndpointStatus → Nat
  | .MissingMethod => 0
  | .InvalidRequest => 1
  | .InternalServerError => 2
  | .InvalidJSON => 3
  | .InvalidResponse => 4
  | .Timeout => 5
  | .Valid => 6

/-- Lexicographic comparison on `((method, statusSUT, statusRef), count)`,
the derived tuple order behind `results.sort()`. -/
def entryLe (a b : ResultEntry × Nat) : Bool :=
  if a.1.1 ≠ b.1.1 then decide (a.1.1 < b.1.1)
  else if a.1.2.1 ≠ b.1.2.1 then decide (a.1.2.1.idx < b.1.2.1.idx)
  else if a.1.2.2 ≠ b.1.2.2 then decide (a.1.2.2.idx < b.1.2.2.idx)
  else decide (a.2 ≤ b.2)

/-- Insertion step of the display sort. -/
def insertSorted (x : ResultEntry × Nat) :
    List (ResultEntry × Nat) → List (ResultEntry × Nat)
  | [] => [x]
  | y :: rest => if entryLe x y then x :: y :: rest else y :: insertSorted x rest

/-- Rust `results.sort()` before rendering the Markdown table. -/
def sortResults : List (ResultEntry × Nat) → List (ResultEntry × Nat)
  | [] => []
  | x :: rest => insertSorted x (sortResults rest)

/-- Rust `print_test_results`: merge the two buckets and sort the rows. Rendering
of the sorted rows into Markdown (`format_as_markdown`) is presentation only
and is not modelled further. -/
def print_test_results (success failed : CountMap) : List (ResultEntry × Nat) :=
  sortResults (combineResults success failed)

/-- The observable outcome of `run_tests`: the printed table rows and whether
the run returned `Ok(())`. -/
structure RunOutput where
  table : List (ResultEntry × Nat)
  ok : Bool
deriving DecidableEq, Repr

/-- The tail of `run_tests`, from the consumption loop on: consume the
arriving results starting from two empty maps, print the table
unconditionally, then return `Ok` iff the failure bucket is empty. -/
def run_tests_report (fail_fast : Bool) (results : List ResultEntry) : RunOutput :=
  let buckets := consumeResults fail_fast results [] []
  { table := print_test_results buckets.1 buckets.2
    ok := buckets.2.isEmpty }

/-- The supported communication protocols of the RPC client. Modelled from
the spec: `CommunicationProtocol` lives in `rpc_client`, outside the verified
sources; spec §6 names the two transports (simple request/response, and a
persistent subscription transport). -/
inductive CommunicationProtocol where
  | Http
  | Ws
deriving DecidableEq, Repr

/-- Modelled from the spec: the `TryFrom` conversion from a multiaddr
protocol tag to a `CommunicationProtocol`. Per the spec and the
`test_derive_protocol` unit test in the source, `http` and `ws` are the
supported tags and any other tag (such as `wss`) fails to convert. -/
def tagTryInto (tag : String) : Option CommunicationProtocol :=
  if tag = "http" then some CommunicationProtocol.Http
  else if tag = "ws" then some CommunicationProtocol.Ws
  else none

/-- An `ApiInfo` endpoint, reduced to the tags of its multiaddr components in
order (for `/ip4/127.0.0.1/tcp/2345/http` this is `["ip4", "tcp", "http"]`);
`multiaddr.pop()` yields the last component's tag. -/
structure ApiInfo where
  multiaddr : List String
deriving DecidableEq, Repr

/-- Rust `derive_protocol`: take the last protocol tag of each endpoint's
multiaddr; the guarded match arm requires both tags present and equal, and
`Ok(x.try_into()?)` additionally propagates a conversion failure for an
unsupported tag. -/
def derive_protocol (forest lotus : ApiInfo) : Option CommunicationProtocol :=
  let a := forest.multiaddr.getLast?
  let b := lotus.multiaddr.getLast?
  match a, b with
  | some x, some y => if x = y then tagTryInto x else none
  | _, _ => none

/-- A chain message, reduced to the fields `snapshot_tests` reads: its CID
(`msg.cid()?`), sender (`msg.from()`), receiver (`msg.to()`), method number
and parameter bytes. CIDs and addresses are abstracted to `Nat`. -/
structure Msg where
  cid : Nat
  sender : Nat
  receiver : Nat
  methodNum : Nat
  params : List Nat
deriving DecidableEq, Repr

/-- A block header, with the BLS and Secp256k1 message lists returned for it
by `crate::chain::store::block_messages(&store, block)` inlined (the archive
read is modelled as total; a read failure aborts generation entirely and
produces no test list at all, so it contributes nothing to the claims about
emitted tests). -/
structure BlockHeader where
  cid : Nat
  miner_address : Nat
  epoch : Int
  bls_messages : List Msg
  secp_messages : List Msg
deriving DecidableEq, Repr

/-- A tipset of the walked chain, with the deal ids readable from the market
actor's proposals at this tipset inlined. -/
structure TipsetData where
  key : Nat
  epoch : Int
  block_headers : List BlockHeader
  deal_ids : List Nat
deriving DecidableEq, Repr

/-- One request identifier per `ApiInfo::..._req` constructor pushed inside
the traversal loop of `snapshot_tests`, carrying the parameters the source
passes. `Option Nat` tipset-key arguments use `none` for
`Default::default()` (the empty tipset key). -/
inductive ReqId where
  | chainGetMessagesInTipset (tsk : Nat)
  | chainGetBlockMessages (blockCid : Nat)
  | chainGetParentMessages (blockCid : Nat)
  | chainGetParentReceipts (blockCid : Nat)
  | stateMinerActiveSectors (miner : Nat) (tsk : Nat)
  | chainGetMessage (msgCid : Nat)
  | stateAccountKey (addr : Nat) (tsk : Option Nat)
  | stateLookupId (addr : Nat) (tsk : Nat)
  | stateWaitMsg (msgCid : Nat) (confidence : Nat)
  | stateSearchMsg (msgCid : Nat)
  | stateSearchMsgLimited (msgCid : Nat) (lookback : Nat)
  | stateListMessages (sender : Option Nat) (receiver : Option Nat) (tsk : Nat) (epoch : Int)
  | mpoolGetNonce (addr : Nat)
  | stateDecodeParams (receiver : Nat) (methodNum : Nat) (params : List Nat) (tsk : Nat)
  | stateMinerInfo (miner : Nat) (tsk : Nat)
  | stateMinerPower (miner : Nat) (tsk : Nat)
  | stateMinerDeadlines (miner : Nat) (tsk : Nat)
  | stateMinerProvingDeadline (miner : Nat) (tsk : Nat)
  | stateMinerAvailableBalance (miner : Nat) (tsk : Nat)
  | stateMinerFaults (miner : Nat) (tsk : Nat)
  | minerGetBaseInfo (miner : Nat) (epoch : Int) (tsk : Nat)
  | stateMinerRecoveries (miner : Nat) (tsk : Nat)
  | stateMinerSectorCount (miner : Nat) (tsk : Nat)
  | stateCirculatingSupply (tsk : Nat)
  | stateVmCirculatingSupplyInternal (tsk : Nat)
  | stateCall (msg : Msg) (tsk : Nat)
  | stateMarketStorageDeal (dealId : Nat) (tsk : Nat)
deriving DecidableEq, Repr

/-- A generated test as the traversal emits it: the request, whether it was
marked `.ignore(...)`, and a per-case timeout override in seconds. -/
structure GenTest where
  req : ReqId
  ignored : Bool
  timeout_secs : Option Nat
deriving DecidableEq, Repr

/-- A plain `RpcTest::identity`/`basic` push: not ignored, default timeout. -/
def emit (r : ReqId) : GenTest :=
  { req := r, ignored := false, timeout_secs := none }

/-- Rust `.ignore(reason)` applied to an emitted test (the reason string is
presentation only and dropped). -/
def GenTest.markIgnore (t : GenTest) : GenTest :=
  { t with ignored := true }

/-- Rust `.with_timeout(Duration::from_secs(n))` applied to an emitted test. -/
def GenTest.withTimeout (t : GenTest) (secs : Nat) : GenTest :=
  { t with timeout_secs := some secs }

/-- Rust `CidHashSet`, the seen-set of message CIDs, modelled as a list. -/
abbrev SeenSet := List Nat

/-- Rust `CidHashSet::insert`: `true` (plus the updated set) when the CID was not
yet present. -/
def seenInsert (seen : SeenSet) (c : Nat) : Bool × SeenSet :=
  if c ∈ seen then (false, seen) else (true, c :: seen)

/-- The ten tests pushed for a not-yet-seen BLS message, in source order:
message lookup, two account-key resolutions (at the root tipset key and at
the default key), sender id-lookup, message-wait with a 30s timeout, ignored
search and limited-search, sender/receiver-filtered listing, then the
non-ignored search and limited-search. -/
def blsMsgTests (root_tsk : Nat) (shared_epoch : Int) (msg : Msg) : List GenTest :=
  [ emit (.chainGetMessage msg.cid),
    emit (.stateAccountKey msg.sender (some root_tsk)),
    emit (.stateAccountKey msg.sender none),
    emit (.stateLookupId msg.sender root_tsk),
    (emit (.stateWaitMsg msg.cid 0)).withTimeout 30,
    (emit (.stateSearchMsg msg.cid)).markIgnore,
    (emit (.stateSearchMsgLimited msg.cid 800)).markIgnore,
    emit (.stateListMessages (some msg.sender) (some msg.receiver) root_tsk shared_epoch),
    emit (.stateSearchMsg msg.cid),
    emit (.stateSearchMsgLimited msg.cid 800) ]

/-- The tests pushed for a not-yet-seen Secp256k1 message, in source order;
the final `state_decode_params` test is pushed only when the message carries
non-empty params, and is ignored. -/
def secpMsgTests (root_tsk : Nat) (shared_epoch : Int) (msg : Msg) : List GenTest :=
  [ emit (.chainGetMessage msg.cid),
    emit (.stateAccountKey msg.sender (some root_tsk)),
    emit (.stateAccountKey msg.sender none),
    emit (.stateLookupId msg.sender root_tsk),
    (emit (.stateWaitMsg msg.cid 0)).withTimeout 30,
    emit (.stateSearchMsg msg.cid),
    emit (.stateSearchMsgLimited msg.cid 800),
    emit (.mpoolGetNonce msg.sender),
    emit (.stateListMessages none (some msg.receiver) root_tsk shared_epoch),
    emit (.stateListMessages (some msg.sender) none root_tsk shared_epoch),
    emit (.stateListMessages none none root_tsk shared_epoch) ]
    ++ (if msg.params.isEmpty then []
        else [(emit (.stateDecodeParams msg.receiver msg.methodNum msg.params root_tsk)).markIgnore])

/-- The guarded per-message loop: for each message whose CID is fresh in the
seen-set, emit that message's tests; the CID is recorded either way. -/
def emitMsgs (tests : Msg → List GenTest) (seen : SeenSet) :
    List Msg → List GenTest × SeenSet
  | [] => ([], seen)
  | msg :: rest =>
    let ins := seenInsert seen msg.cid
    if ins.1 then
      let next := emitMsgs tests ins.2 rest
      (tests msg ++ next.1, next.2)
    else
      emitMsgs tests ins.2 rest

/-- The four per-block tests pushed before the message loops. -/
def blockHeadTests (block : BlockHeader) (root_tsk : Nat) : List GenTest :=
  [ emit (.chainGetBlockMessages block.cid),
    emit (.chainGetParentMessages block.cid),
    emit (.chainGetParentReceipts block.cid),
    emit (.stateMinerActiveSectors block.miner_address root_tsk) ]

/-- The nine per-miner tests pushed after the message loops, in source
order. -/
def blockMinerTests (block : BlockHeader) (tipset_key : Nat) : List GenTest :=
  [ emit (.stateMinerInfo block.miner_address tipset_key),
    emit (.stateMinerPower block.miner_address tipset_key),
    emit (.stateMinerDeadlines block.miner_address tipset_key),
    emit (.stateMinerProvingDeadline block.miner_address tipset_key),
    emit (.stateMinerAvailableBalance block.miner_address tipset_key),
    emit (.stateMinerFaults block.miner_address tipset_key),
    emit (.minerGetBaseInfo block.miner_address block.epoch tipset_key),
    emit (.stateMinerRecoveries block.miner_address tipset_key),
    emit (.stateMinerSectorCount block.miner_address tipset_key) ]

/-- One block of the inner `for block in tipset.block_headers()` loop: head
tests, guarded BLS messages, guarded Secp messages, miner tests. -/
def blockTests (root_tsk : Nat) (shared_epoch : Int) (tipset_key : Nat)
    (seen : SeenSet) (block : BlockHeader) : List GenTest × SeenSet :=
  let bls := emitMsgs (blsMsgTests root_tsk shared_epoch) seen block.bls_messages
  let secp := emitMsgs (secpMsgTests root_tsk shared_epoch) bls.2 block.secp_messages
  (blockHeadTests block root_tsk ++ bls.1 ++ secp.1 ++ blockMinerTests block tipset_key,
    secp.2)

/-- The fold of `blockTests` over a tipset's blocks, threading the seen-set. -/
def blocksTests (root_tsk : Nat) (shared_epoch : Int) (tipset_key : Nat)
    (seen : SeenSet) : List BlockHeader → List GenTest × SeenSet
  | [] => ([], seen)
  | block :: rest =>
    let cur := blockTests root_tsk shared_epoch tipset_key seen block
    let next := blocksTests root_tsk shared_epoch tipset_key cur.2 rest
    (cur.1 ++ next.1, next.2)

/-- The per-tipset circulating-supply pair. -/
def tipsetSupplyTests (tipset_key : Nat) : List GenTest :=
  [ emit (.stateCirculatingSupply tipset_key),
    emit (.stateVmCirculatingSupplyInternal tipset_key) ]

/-- The second per-tipset block loop: a `state_call` replay at the root
tipset key for every Secp then BLS message of every block. -/
def stateCallTests (shared_tsk : Nat) (blocks : List BlockHeader) : List GenTest :=
  (blocks.map (fun block =>
    block.secp_messages.map (fun m => emit (.stateCall m shared_tsk))
      ++ block.bls_messages.map (fun m => emit (.stateCall m shared_tsk)))).flatten

/-- At most five storage-deal lookups per tipset. -/
def dealTests (tipset : TipsetData) : List GenTest :=
  (tipset.deal_ids.take 5).map (fun deal => emit (.stateMarketStorageDeal deal tipset.key))

/-- One iteration of the outer `for tipset in ...` loop, in source order. -/
def tipsetTests (root_tsk : Nat) (shared_epoch : Int) (seen : SeenSet)
    (tipset : TipsetData) : List GenTest × SeenSet :=
  let blocksOut := blocksTests root_tsk shared_epoch tipset.key seen tipset.block_headers
  (emit (.chainGetMessagesInTipset tipset.key)
      :: blocksOut.1
      ++ tipsetSupplyTests tipset.key
      ++ stateCallTests root_tsk tipset.block_headers
      ++ dealTests tipset,
    blocksOut.2)

/-- The fold of `tipsetTests` over the walked tipsets. -/
def walkTipsets (root_tsk : Nat) (shared_epoch : Int) (seen : SeenSet) :
    List TipsetData → List GenTest × SeenSet
  | [] => ([], seen)
  | tipset :: rest =>
    let cur := tipsetTests root_tsk shared_epoch seen tipset
    let next := walkTipsets root_tsk shared_epoch cur.2 rest
    (cur.1 ++ next.1, next.2)

/-- The traversal core of `snapshot_tests`:
`for tipset in shared_tipset.chain(&store).take(n_tipsets) { ... }`, started
with an empty seen-set. `chain` is the backward tipset walk rooted at the
heaviest tipset (root first); `root_tsk` and `shared_epoch` are the root's
key and epoch. The root-anchored tests emitted before this loop
(`chain_tests_with_tipset`, `state_tests`, `eth_tests_with_tipset` and the
two verified-client-status tests) carry no message CIDs and are outside this
model. -/
def snapshot_walk_tests (chain : List TipsetData) (n_tipsets : Nat)
    (root_tsk : Nat) (shared_epoch : Int) : List GenTest :=
  (walkTipsets root_tsk shared_epoch [] (chain.take n_tipsets)).1

/-- The message CIDs of a message list, in order. -/
def msgsCids (msgs : List Msg) : List Nat := msgs.map (fun m => m.cid)

/-- All message CIDs of a block (BLS first, as the source visits them). -/
def blockCids (b : BlockHeader) : List Nat :=
  msgsCids b.bls_messages ++ msgsCids b.secp_messages

/-- All message CIDs occurring in a tipset's blocks. -/
def tipsetCids (t : TipsetData) : List Nat :=
  (t.block_headers.map blockCids).flatten

/-- All message CIDs occurring in a list of tipsets. -/
def windowCids (ts : List TipsetData) : List Nat :=
  (ts.map tipsetCids).flatten

/-- Occurrences in a generated test list of tests satisfying `p`. -/
def countP (tests : List GenTest) (p : GenTest → Bool) : Nat :=
  tests.countP p

/-- Occurrences in a generated test list of a given request. -/
def countReq (tests : List GenTest) (r : ReqId) : Nat :=
  countP tests (fun t => t.req == r)

/-! ## Claim theorems -/

/-- C1 (counterexample): two error responses with codes 1 and 2 both classify
to `InternalServerError` — identically — yet `RpcTest::run` reports
`(InternalServerError, InternalServerError)`, not `(Valid, Valid)`: the
override is guarded by equality of the errors themselves
(`forest_err == lotus_err`), not by equality of their classifications. -/
theorem run_identical_classification_not_overridden :
    (EndpointStatus.from_json_error { code := 1, message := "a" }
      = EndpointStatus.from_json_error { code := 2, message := "b" }) ∧
    (RpcTest.basic (fun v : Nat => some v)).run
        (.error { code := 1, message := "a" }) (.error { code := 2, message := "b" })
      = (.InternalServerError, .InternalServerError) ∧
    (RpcTest.basic (fun v : Nat => some v)).run
        (.error { code := 1, message := "a" }) (.error { code := 2, message := "b" })
      ≠ (.Valid, .Valid) := by
  decide

/-- C1 (amended): if both endpoints return equal errors (same code and same
message — which in particular classify identically), the arbitration rule
yields `(Valid, Valid)`. -/
theorem run_equal_errors_override_valid {V : Type} (test : RpcTest V)
    (forest_err lotus_err : JsonRpcError) (h : forest_err = lotus_err) :
    test.run (.error forest_err) (.error lotus_err) = (.Valid, .Valid) := by
  subst h
  simp [RpcTest.run]

/-- Witness for the amended C1 at a concrete equal error pair. -/
theorem run_equal_errors_override_valid_witness :
    (RpcTest.basic (fun v : Nat => some v)).run
        (.error { code := 5, message := "x" }) (.error { code := 5, message := "x" })
      = (.Valid, .Valid) :=
  run_equal_errors_override_valid (RpcTest.basic (fun v : Nat => some v))
    { code := 5, message := "x" } { code := 5, message := "x" } rfl

/-- C2 (counterexample): an error with the parse-error code −32700 classifies
to `InvalidResponse`, which is none of `MissingMethod`, `InvalidRequest`,
`Timeout`, `InternalServerError`; its code denotes neither method-not-found
nor an invalid/oversized request, and its message signals no timeout. -/
theorem from_json_error_parse_error_counterexample :
    EndpointStatus.from_json_error { code := -32700, message := "" }
        = .InvalidResponse ∧
    ((-32700 : Int) ≠ methodNotFoundCode ∧ (-32700 : Int) ≠ invalidRequestCode ∧
      (-32700 : Int) ≠ oversizedRequestCode ∧
      strContains "" "timed out" = false) ∧
    (EndpointStatus.InvalidResponse ≠ .MissingMethod ∧
      EndpointStatus.InvalidResponse ≠ .InvalidRequest ∧
      EndpointStatus.InvalidResponse ≠ .Timeout ∧
      EndpointStatus.InvalidResponse ≠ .InternalServerError) := by
  decide

/-- C2 (amended): for every error whose code denotes none of parse error,
oversized request, invalid request or method-not-found, and which does not
satisfy the timeout guard, classification assigns `InternalServerError`; and
classification of an error never yields any status other than
`InvalidResponse` (parse-error codes), `InvalidRequest`, `MissingMethod`,
`Timeout`, or `InternalServerError` — in particular never `InvalidJSON` or
`Valid`. -/
theorem from_json_error_classification (err : JsonRpcError) :
    ((err.code ≠ parseErrorCode ∧ err.code ≠ oversizedRequestCode ∧
      err.code ≠ invalidRequestCode ∧ err.code ≠ methodNotFoundCode ∧
      ¬(err.code = 0 ∧ strContains err.message "timed out" = true)) →
      EndpointStatus.from_json_error err = .InternalServerError) ∧
    (EndpointStatus.from_json_error err = .InvalidResponse ∨
      EndpointStatus.from_json_error err = .InvalidRequest ∨
      EndpointStatus.from_json_error err = .MissingMethod ∨
      EndpointStatus.from_json_error err = .Timeout ∨
      EndpointStatus.from_json_error err = .InternalServerError) := by
  unfold EndpointStatus.from_json_error
  constructor
  · intro ⟨hp, ho, hi, hm, ht⟩
    simp [hp, ho, hi, hm, ht]
  · split
    · simp
    · split
      · simp
      · split
        · simp
        · split
          · simp
          · split
            · simp
            · simp

/-- Witness for the amended C2 at a concrete unclassified error. -/
theorem from_json_error_classification_witness :
    EndpointStatus.from_json_error { code := 1, message := "boom" }
      = .InternalServerError :=
  (from_json_error_classification { code := 1, message := "boom" }).1 (by decide)

/-- C3: for an `identity` test, if both endpoints succeed and both raw values
decode (hence pass the syntax check), equal domain values give
`(Valid, Valid)` and unequal domain values give `(InvalidResponse, Valid)` —
the reference (Lotus) side stays `Valid` either way. -/
theorem identity_run_classification {V LJ T : Type} [DecidableEq T]
    (decodeLJ : V → Option LJ) (from_lotus_json : LJ → T)
    (forest lotus : V) (x y : LJ)
    (hf : decodeLJ forest = some x) (hl : decodeLJ lotus = some y) :
    (from_lotus_json x = from_lotus_json y →
      (RpcTest.identity decodeLJ from_lotus_json).run (.ok forest) (.ok lotus)
        = (.Valid, .Valid)) ∧
    (from_lotus_json x ≠ from_lotus_json y →
      (RpcTest.identity decodeLJ from_lotus_json).run (.ok forest) (.ok lotus)
        = (.InvalidResponse, .Valid)) := by
  constructor
  · intro h
    simp [RpcTest.identity, RpcTest.validate, RpcTest.run, hf, hl, h]
  · intro h
    simp [RpcTest.identity, RpcTest.validate, RpcTest.run, hf, hl, h]

/-- Witness for C3 at concrete decodable values, equal case. -/
theorem identity_run_classification_witness :
    (RpcTest.identity (fun v : Nat => some v) (fun x => x)).run (.ok 3) (.ok 3)
      = (.Valid, .Valid) :=
  (identity_run_classification (fun v : Nat => some v) (fun x => x) 3 3 3 3 rfl rfl).1 rfl

/-- The empty pattern is a substring of every string. -/
theorem strContains_empty_pattern (s : String) : strContains s "" = true := by
  show containsSub [] s.data = true
  cases s.data with
  | nil => rfl
  | cons c t => simp [containsSub, List.isPrefixOf]

/-- C6: `authorize(name)` is true iff (the allow list is empty or the name
contains some allow entry) and the name contains no reject entry;
consequently a name matched by both an allow and a reject rule is rejected,
and with an empty allow list a name is authorized iff no reject rule matches
it. -/
theorem filter_list_authorize_spec (fl : FilterList) (name : String) :
    (fl.authorize name = true ↔
      ((fl.allow = [] ∨ ∃ a ∈ fl.allow, strContains name a = true) ∧
        ¬∃ r ∈ fl.reject, strContains name r = true)) ∧
    ((∃ a ∈ fl.allow, strContains name a = true) →
      (∃ r ∈ fl.reject, strContains name r = true) →
      fl.authorize name = false) ∧
    (fl.allow = [] →
      (fl.authorize name = true ↔ ¬∃ r ∈ fl.reject, strContains name r = true)) := by
  have hiff : fl.authorize name = true ↔
      ((fl.allow = [] ∨ ∃ a ∈ fl.allow, strContains name a = true) ∧
        ¬∃ r ∈ fl.reject, strContains name r = true) := by
    simp [FilterList.authorize, List.isEmpty_iff, List.any_eq_true]
  refine ⟨hiff, ?_, ?_⟩
  · intro hallow hreject
    by_cases h : fl.authorize name = true
    · exact absurd hreject (hiff.mp h).2
    · simpa using h
  · intro hempty
    rw [hiff]
    simp [hempty]

/-- Witness for C6: reject wins over allow on a concrete list and name. -/
theorem filter_list_authorize_spec_witness :
    FilterList.authorize { allow := ["Chain"], reject := ["Chain"] }
      "Filecoin.ChainGetBlock" = false :=
  (filter_list_authorize_spec { allow := ["Chain"], reject := ["Chain"] }
      "Filecoin.ChainGetBlock").2.1
    ⟨"Chain", by decide, by decide⟩ ⟨"Chain", by decide, by decide⟩

/-- C9: with no filter file and the CLI-default empty inline filter,
`run_tests` builds a filter list whose allow list is exactly the one-element
list containing the empty string and whose reject list is empty, and that
filter list authorizes every method name, since every string contains the
empty string as a substring. -/
theorem default_inline_filter_authorizes_all :
    (run_tests_inline_filter "").allow = [""] ∧
    (run_tests_inline_filter "").reject = [] ∧
    ∀ name : String, (run_tests_inline_filter "").authorize name = true := by
  refine ⟨rfl, rfl, ?_⟩
  intro name
  simp [run_tests_inline_filter, FilterList.empty, FilterList.pushAllow,
    FilterList.authorize, strContains_empty_pattern name]

/-- C10: `derive_protocol` succeeds with protocol `p` iff both endpoint
multiaddrs end in the same tag and that tag converts to `p`; on the concrete
pair of endpoints both ending in the unsupported tag `wss`, it fails even
though the tags agree — equal tags are necessary but not sufficient. -/
theorem derive_protocol_spec (forest lotus : ApiInfo) (p : CommunicationProtocol) :
    (derive_protocol forest lotus = some p ↔
      ∃ tag, forest.multiaddr.getLast? = some tag ∧
        lotus.multiaddr.getLast? = some tag ∧ tagTryInto tag = some p) ∧
    derive_protocol { multiaddr := ["ip4", "tcp", "wss"] }
        { multiaddr := ["ip4", "tcp", "wss"] } = none := by
  constructor
  · unfold derive_protocol
    cases ha : forest.multiaddr.getLast? with
    | none => simp
    | some x =>
      cases hb : lotus.multiaddr.getLast? with
      | none => simp
      | some y =>
        by_cases hxy : x = y
        · subst hxy
          simp
        · constructor
          · intro h
            simp [hxy] at h
          · rintro ⟨tag, h1, h2, h3⟩
            rw [Option.some_inj] at h1 h2
            exact absurd (h1.trans h2.symm) hxy
  · decide

/-- Witness for C10: both endpoints ending in `http` resolve to HTTP. -/
theorem derive_protocol_spec_witness :
    derive_protocol { multiaddr := ["ip4", "tcp", "http"] }
      { multiaddr := ["ip4", "tcp", "http"] } = some CommunicationProtocol.Http :=
  (derive_protocol_spec { multiaddr := ["ip4", "tcp", "http"] }
      { multiaddr := ["ip4", "tcp", "http"] } CommunicationProtocol.Http).1.mpr
    ⟨"http", rfl, rfl, rfl⟩

/-- Incrementing key `k` raises exactly that key's count by one. -/
theorem countOf_bump (m : CountMap) (k e : ResultEntry) :
    countOf (bump m k) e = countOf m e + (if e = k then 1 else 0) := by
  induction m with
  | nil =>
    rcases eq_or_ne e k with h | h
    · subst h
      simp [bump, countOf]
    · simp [bump, countOf, h, Ne.symm h]
  | cons hd tl ih =>
    obtain ⟨k', v⟩ := hd
    by_cases hk : k' = k
    · subst hk
      rcases eq_or_ne e k' with he | he
      · subst he
        simp [bump, countOf]
      · simp [bump, countOf, Ne.symm he, he]
    · rcases eq_or_ne e k' with he | he
      · subst he
        simp [bump, countOf, hk, Ne.symm hk]
      · simp [bump, countOf, hk, Ne.symm he, ih]

/-- Lemma: `bump` never produces the empty map. -/
theorem bump_ne_nil (m : CountMap) (k : ResultEntry) : bump m k ≠ [] := by
  cases m with
  | nil => simp [bump]
  | cons hd tl =>
    obtain ⟨k', v⟩ := hd
    by_cases h : k' = k <;> simp [bump, h]

/-- With `fail_fast` unset the consumption loop never stops early. -/
theorem consumeResults_false_cons (e : ResultEntry) (rest : List ResultEntry)
    (s f : CountMap) :
    consumeResults false (e :: rest) s f =
      if isSuccessEntry e then consumeResults false rest (bump s e) f
      else consumeResults false rest s (bump f e) := by
  rw [consumeResults]
  rcases Bool.eq_false_or_eq_true (isSuccessEntry e) with h | h <;> simp [h]

/-- Each consumed result raises the total count of its own key by one across
the two buckets, a success key is never counted in the failure bucket, and a
failure key is never counted in the success bucket. -/
theorem consumeResults_count (results : List ResultEntry) (s f : CountMap)
    (e : ResultEntry) :
    (countOf (consumeResults false results s f).1 e
        + countOf (consumeResults false results s f).2 e
      = countOf s e + countOf f e + results.count e) ∧
    (isSuccessEntry e = true →
      countOf (consumeResults false results s f).2 e = countOf f e) ∧
    (isSuccessEntry e = false →
      countOf (consumeResults false results s f).1 e = countOf s e) := by
  induction results generalizing s f with
  | nil => simp [consumeResults]
  | cons hd rest ih =>
    rw [consumeResults_false_cons]
    by_cases h : isSuccessEntry hd = true
    · obtain ⟨ih1, ih2, ih3⟩ := ih (bump s hd) f
      rw [if_pos h]
      refine ⟨?_, ?_, ?_⟩
      · rw [ih1, countOf_bump, List.count_cons]
        rcases eq_or_ne e hd with he | he
        · subst he
          simp
          omega
        · simp [he, Ne.symm he]
      · intro hse
        exact ih2 hse
      · intro hse
        have hne : e ≠ hd := fun heq => by simp [heq, h] at hse
        rw [ih3 hse, countOf_bump]
        simp [hne]
    · obtain ⟨ih1, ih2, ih3⟩ := ih s (bump f hd)
      rw [if_neg h]
      refine ⟨?_, ?_, ?_⟩
      · rw [ih1, countOf_bump, List.count_cons]
        rcases eq_or_ne e hd with he | he
        · subst he
          simp
          omega
        · simp [he, Ne.symm he]
      · intro hse
        have hne : e ≠ hd := fun heq => h (heq ▸ hse)
        rw [ih2 hse, countOf_bump]
        simp [hne]
      · intro hse
        exact ih3 hse

/-- The failure bucket ends empty iff it started empty and every consumed
result satisfies the success predicate. -/
theorem consumeResults_failed_empty_iff (results : List ResultEntry)
    (s f : CountMap) :
    (consumeResults false results s f).2 = [] ↔
      (f = [] ∧ ∀ e ∈ results, isSuccessEntry e = true) := by
  induction results generalizing s f with
  | nil => simp [consumeResults]
  | cons hd rest ih =>
    rw [consumeResults_false_cons]
    by_cases h : isSuccessEntry hd = true
    · rw [if_pos h, ih]
      simp [h]
    · rw [if_neg h, ih]
      constructor
      · rintro ⟨hb, _⟩
        exact absurd hb (bump_ne_nil f hd)
      · rintro ⟨hf, hall⟩
        exact absurd (hall hd (by simp)) h

/-- C4: with the consumption running to completion, every consumed result
triple is counted exactly once across the two buckets (the per-key totals of
the two maps sum to the key's number of occurrences in the consumed stream),
the failure bucket never counts a key whose statuses are both `Valid` or both
`Timeout`, the success bucket never counts any other key, and a
`(method, Timeout, Timeout)` key satisfies the success predicate. -/
theorem run_tests_result_partition (results : List ResultEntry) (e : ResultEntry) :
    (countOf (consumeResults false results [] []).1 e
        + countOf (consumeResults false results [] []).2 e = results.count e) ∧
    (isSuccessEntry e = true → countOf (consumeResults false results [] []).2 e = 0) ∧
    (isSuccessEntry e = false → countOf (consumeResults false results [] []).1 e = 0) ∧
    (∀ method : String,
      isSuccessEntry (method, EndpointStatus.Timeout, EndpointStatus.Timeout) = true) := by
  obtain ⟨h1, h2, h3⟩ := consumeResults_count results [] [] e
  refine ⟨by simpa [countOf] using h1, fun h => by simpa [countOf] using h2 h,
    fun h => by simpa [countOf] using h3 h, fun method => by simp [isSuccessEntry]⟩

/-- Witness for C4: a double-timeout result is never counted in the failure
bucket. -/
theorem run_tests_result_partition_witness :
    countOf (consumeResults false
        [("Filecoin.ChainHead", EndpointStatus.Timeout, EndpointStatus.Timeout)] [] []).2
      ("Filecoin.ChainHead", EndpointStatus.Timeout, EndpointStatus.Timeout) = 0 :=
  (run_tests_result_partition
      [("Filecoin.ChainHead", EndpointStatus.Timeout, EndpointStatus.Timeout)]
      ("Filecoin.ChainHead", EndpointStatus.Timeout, EndpointStatus.Timeout)).2.1
    (by decide)

/-- C5: the run returns `Ok` iff the failure bucket is empty when consumption
ends (with `fail_fast` unset this means every consumed result was a success
key), and the merged, sorted table is produced from both buckets regardless
of that decision — also when the failure bucket is non-empty. -/
theorem run_tests_overall_result (fail_fast : Bool) (results : List ResultEntry) :
    ((run_tests_report fail_fast results).ok = true ↔
      (consumeResults fail_fast results [] []).2 = []) ∧
    ((run_tests_report false results).ok = true ↔
      ∀ e ∈ results, isSuccessEntry e = true) ∧
    (run_tests_report fail_fast results).table
      = print_test_results (consumeResults fail_fast results [] []).1
          (consumeResults fail_fast results [] []).2 := by
  refine ⟨?_, ?_, rfl⟩
  · simp [run_tests_report, List.isEmpty_iff]
  · show (consumeResults false results [] []).2.isEmpty = true ↔ _
    rw [List.isEmpty_iff, consumeResults_failed_empty_iff]
    simp

/-- Witness for C5: a run with one failing result reports failure, and its
table still carries the failing row. -/
theorem run_tests_overall_result_witness :
    ((run_tests_report false
        [("Filecoin.ChainHead", EndpointStatus.InvalidJSON, EndpointStatus.Valid)]).ok = true ↔
      ∀ e ∈ [(("Filecoin.ChainHead" : String), EndpointStatus.InvalidJSON, EndpointStatus.Valid)],
        isSuccessEntry e = true) :=
  (run_tests_overall_result false
    [("Filecoin.ChainHead", EndpointStatus.InvalidJSON, EndpointStatus.Valid)]).2.1

theorem msgsCids_nil : msgsCids [] = [] := rfl

theorem msgsCids_cons (m : Msg) (ms : List Msg) :
    msgsCids (m :: ms) = m.cid :: msgsCids ms := rfl

/-- A message whose CID is already seen is skipped entirely. -/
theorem emitMsgs_cons_mem (f : Msg → List GenTest) (seen : SeenSet) (msg : Msg)
    (rest : List Msg) (hmem : msg.cid ∈ seen) :
    emitMsgs f seen (msg :: rest) = emitMsgs f seen rest := by
  simp [emitMsgs, seenInsert, hmem]

/-- A fresh message emits its tests and records its CID. -/
theorem emitMsgs_cons_new (f : Msg → List GenTest) (seen : SeenSet) (msg : Msg)
    (rest : List Msg) (hmem : msg.cid ∉ seen) :
    emitMsgs f seen (msg :: rest) =
      (f msg ++ (emitMsgs f (msg.cid :: seen) rest).1,
        (emitMsgs f (msg.cid :: seen) rest).2) := by
  simp [emitMsgs, seenInsert, hmem]

/-- Dedup core: if each message's test group matches a predicate exactly when
the message has CID `c`, the guarded loop matches once iff `c` is fresh and
occurs, and the final seen-set is the union of the initial one and the
visited CIDs. -/
theorem emitMsgs_countP (p : GenTest → Bool) (c : Nat) (f : Msg → List GenTest)
    (hf : ∀ msg, (f msg).countP p = if msg.cid = c then 1 else 0)
    (msgs : List Msg) : ∀ seen : SeenSet,
    ((emitMsgs f seen msgs).1.countP p
        = if c ∉ seen ∧ c ∈ msgsCids msgs then 1 else 0) ∧
    (∀ x, x ∈ (emitMsgs f seen msgs).2 ↔ x ∈ seen ∨ x ∈ msgsCids msgs) := by
  induction msgs with
  | nil =>
    intro seen
    simp [emitMsgs, msgsCids]
  | cons msg rest ih =>
    intro seen
    by_cases hmem : msg.cid ∈ seen
    · rw [emitMsgs_cons_mem f seen msg rest hmem]
      obtain ⟨ih1, ih2⟩ := ih seen
      refine ⟨?_, ?_⟩
      · rw [ih1, msgsCids_cons]
        rcases eq_or_ne c msg.cid with hc | hc
        · subst hc
          simp [hmem]
        · simp [hc]
      · intro x
        rw [ih2, msgsCids_cons]
        simp only [List.mem_cons]
        constructor
        · tauto
        · rintro (hx | rfl | hx)
          · exact Or.inl hx
          · exact Or.inl hmem
          · exact Or.inr hx
    · rw [emitMsgs_cons_new f seen msg rest hmem]
      obtain ⟨ih1, ih2⟩ := ih (msg.cid :: seen)
      refine ⟨?_, ?_⟩
      · show (f msg ++ _).countP p = _
        rw [List.countP_append, hf, ih1, msgsCids_cons]
        rcases eq_or_ne c msg.cid with hc | hc
        · subst hc
          simp [hmem]
        · simp [hc, Ne.symm hc]
      · intro x
        show x ∈ (emitMsgs f (msg.cid :: seen) rest).2 ↔ _
        rw [ih2, msgsCids_cons]
        simp
        tauto

/-- Block-level dedup: the head and miner tests never match the predicate,
so one block's test list matches once iff `c` is fresh and occurs among the
block's messages. -/
theorem blockTests_countP (p : GenTest → Bool) (c : Nat) (rt : Nat) (ep : Int) (tsk : Nat)
    (hb : ∀ msg, (blsMsgTests rt ep msg).countP p = if msg.cid = c then 1 else 0)
    (hs : ∀ msg, (secpMsgTests rt ep msg).countP p = if msg.cid = c then 1 else 0)
    (hhead : ∀ block : BlockHeader, (blockHeadTests block rt).countP p = 0)
    (hminer : ∀ block : BlockHeader, (blockMinerTests block tsk).countP p = 0)
    (seen : SeenSet) (block : BlockHeader) :
    ((blockTests rt ep tsk seen block).1.countP p
        = if c ∉ seen ∧ c ∈ blockCids block then 1 else 0) ∧
    (∀ x, x ∈ (blockTests rt ep tsk seen block).2 ↔ x ∈ seen ∨ x ∈ blockCids block) := by
  obtain ⟨hbls1, hbls2⟩ :=
    emitMsgs_countP p c (blsMsgTests rt ep) hb block.bls_messages seen
  obtain ⟨hsecp1, hsecp2⟩ :=
    emitMsgs_countP p c (secpMsgTests rt ep) hs block.secp_messages
      (emitMsgs (blsMsgTests rt ep) seen block.bls_messages).2
  constructor
  · show (blockHeadTests block rt
        ++ (emitMsgs (blsMsgTests rt ep) seen block.bls_messages).1
        ++ (emitMsgs (secpMsgTests rt ep)
              (emitMsgs (blsMsgTests rt ep) seen block.bls_messages).2
              block.secp_messages).1
        ++ blockMinerTests block tsk).countP p = _
    rw [List.countP_append, List.countP_append, List.countP_append,
      hhead, hminer, hbls1, hsecp1]
    by_cases h1 : c ∈ seen
    · simp [h1, blockCids, hbls2]
    · by_cases h2 : c ∈ msgsCids block.bls_messages
      · simp [h1, h2, blockCids, hbls2]
      · by_cases h3 : c ∈ msgsCids block.secp_messages
        · simp [h1, h2, h3, blockCids, hbls2]
        · simp [h1, h2, h3, blockCids, hbls2]
  · intro x
    show x ∈ (emitMsgs (secpMsgTests rt ep)
        (emitMsgs (blsMsgTests rt ep) seen block.bls_messages).2
        block.secp_messages).2 ↔ _
    rw [hsecp2, hbls2]
    simp only [blockCids, List.mem_append]
    tauto

/-- Lift of the block-level dedup over a tipset's block list. -/
theorem blocksTests_countP (p : GenTest → Bool) (c : Nat) (rt : Nat) (ep : Int) (tsk : Nat)
    (hb : ∀ msg, (blsMsgTests rt ep msg).countP p = if msg.cid = c then 1 else 0)
    (hs : ∀ msg, (secpMsgTests rt ep msg).countP p = if msg.cid = c then 1 else 0)
    (hhead : ∀ block : BlockHeader, (blockHeadTests block rt).countP p = 0)
    (hminer : ∀ block : BlockHeader, (blockMinerTests block tsk).countP p = 0)
    (blocks : List BlockHeader) : ∀ seen : SeenSet,
    ((blocksTests rt ep tsk seen blocks).1.countP p
        = if c ∉ seen ∧ c ∈ (blocks.map blockCids).flatten then 1 else 0) ∧
    (∀ x, x ∈ (blocksTests rt ep tsk seen blocks).2 ↔
      x ∈ seen ∨ x ∈ (blocks.map blockCids).flatten) := by
  induction blocks with
  | nil =>
    intro seen
    simp [blocksTests]
  | cons block rest ih =>
    intro seen
    obtain ⟨hc1, hc2⟩ := blockTests_countP p c rt ep tsk hb hs hhead hminer seen block
    obtain ⟨ih1, ih2⟩ := ih (blockTests rt ep tsk seen block).2
    refine ⟨?_, ?_⟩
    · show ((blockTests rt ep tsk seen block).1
          ++ (blocksTests rt ep tsk (blockTests rt ep tsk seen block).2 rest).1).countP p = _
      rw [List.countP_append, hc1, ih1]
      by_cases h1 : c ∈ seen
      · simp [h1, hc2]
      · by_cases h2 : c ∈ blockCids block
        · simp [h1, h2, hc2]
        · by_cases h3 : c ∈ (rest.map blockCids).flatten
          · simp [h1, h2, h3, hc2]
          · simp [h1, h2, h3, hc2]
    · intro x
      show x ∈ (blocksTests rt ep tsk (blockTests rt ep tsk seen block).2 rest).2 ↔ _
      rw [ih2, hc2]
      simp only [List.map_cons, List.flatten_cons, List.mem_append]
      tauto

/-- Tipset-level dedup: the per-tipset header test, the circulating-supply
pair, the `state_call` replays and the deal lookups never match the
predicate. -/
theorem tipsetTests_countP (p : GenTest → Bool) (c : Nat) (rt : Nat) (ep : Int)
    (hb : ∀ msg, (blsMsgTests rt ep msg).countP p = if msg.cid = c then 1 else 0)
    (hs : ∀ msg, (secpMsgTests rt ep msg).countP p = if msg.cid = c then 1 else 0)
    (hhead : ∀ block : BlockHeader, ∀ k : Nat, (blockHeadTests block k).countP p = 0)
    (hminer : ∀ block : BlockHeader, ∀ k : Nat, (blockMinerTests block k).countP p = 0)
    (hpre : ∀ k : Nat, p (emit (.chainGetMessagesInTipset k)) = false)
    (hsup : ∀ k : Nat, (tipsetSupplyTests k).countP p = 0)
    (hcall : ∀ (k : Nat) (blocks : List BlockHeader), (stateCallTests k blocks).countP p = 0)
    (hdeal : ∀ ts : TipsetData, (dealTests ts).countP p = 0)
    (seen : SeenSet) (tipset : TipsetData) :
    ((tipsetTests rt ep seen tipset).1.countP p
        = if c ∉ seen ∧ c ∈ tipsetCids tipset then 1 else 0) ∧
    (∀ x, x ∈ (tipsetTests rt ep seen tipset).2 ↔ x ∈ seen ∨ x ∈ tipsetCids tipset) := by
  obtain ⟨hc1, hc2⟩ := blocksTests_countP p c rt ep tipset.key hb hs
    (fun b => hhead b rt) (fun b => hminer b tipset.key) tipset.block_headers seen
  refine ⟨?_, ?_⟩
  · show (emit (.chainGetMessagesInTipset tipset.key)
        :: (blocksTests rt ep tipset.key seen tipset.block_headers).1
        ++ tipsetSupplyTests tipset.key
        ++ stateCallTests rt tipset.block_headers
        ++ dealTests tipset).countP p = _
    rw [List.countP_append, List.countP_append, List.countP_append, List.countP_cons,
      hc1, hsup, hcall, hdeal]
    simp [tipsetCids, hpre]
  · intro x
    show x ∈ (blocksTests rt ep tipset.key seen tipset.block_headers).2 ↔ _
    rw [hc2]
    rfl

/-- Lift of the dedup over the walked tipset list. -/
theorem walkTipsets_countP (p : GenTest → Bool) (c : Nat) (rt : Nat) (ep : Int)
    (hb : ∀ msg, (blsMsgTests rt ep msg).countP p = if msg.cid = c then 1 else 0)
    (hs : ∀ msg, (secpMsgTests rt ep msg).countP p = if msg.cid = c then 1 else 0)
    (hhead : ∀ block : BlockHeader, ∀ k : Nat, (blockHeadTests block k).countP p = 0)
    (hminer : ∀ block : BlockHeader, ∀ k : Nat, (blockMinerTests block k).countP p = 0)
    (hpre : ∀ k : Nat, p (emit (.chainGetMessagesInTipset k)) = false)
    (hsup : ∀ k : Nat, (tipsetSupplyTests k).countP p = 0)
    (hcall : ∀ (k : Nat) (blocks : List BlockHeader), (stateCallTests k blocks).countP p = 0)
    (hdeal : ∀ ts : TipsetData, (dealTests ts).countP p = 0)
    (tipsets : List TipsetData) : ∀ seen : SeenSet,
    ((walkTipsets rt ep seen tipsets).1.countP p
        = if c ∉ seen ∧ c ∈ windowCids tipsets then 1 else 0) ∧
    (∀ x, x ∈ (walkTipsets rt ep seen tipsets).2 ↔ x ∈ seen ∨ x ∈ windowCids tipsets) := by
  induction tipsets with
  | nil =>
    intro seen
    simp [walkTipsets, windowCids]
  | cons tipset rest ih =>
    intro seen
    obtain ⟨hc1, hc2⟩ := tipsetTests_countP p c rt ep hb hs hhead hminer hpre hsup
      hcall hdeal seen tipset
    obtain ⟨ih1, ih2⟩ := ih (tipsetTests rt ep seen tipset).2
    refine ⟨?_, ?_⟩
    · show ((tipsetTests rt ep seen tipset).1
          ++ (walkTipsets rt ep (tipsetTests rt ep seen tipset).2 rest).1).countP p = _
      rw [List.countP_append, hc1, ih1]
      by_cases h1 : c ∈ seen
      · simp [h1, hc2, windowCids]
      · by_cases h2 : c ∈ tipsetCids tipset
        · simp [h1, h2, hc2, windowCids]
        · by_cases h3 : c ∈ windowCids rest
          · simp [h1, h2, h3, hc2, windowCids]
          · simp [h1, h2, h3, hc2, windowCids]
    · intro x
      show x ∈ (walkTipsets rt ep (tipsetTests rt ep seen tipset).2 rest).2 ↔ _
      rw [ih2, hc2]
      simp only [windowCids, List.map_cons, List.flatten_cons, List.mem_append]
      tauto

/-- Top-level dedup property: starting from the empty seen-set, a predicate
that matches exactly one test inside each message's emitted group (and
nothing outside the groups) matches exactly once over the whole walk iff the
CID occurs in the traversal window. -/
theorem snapshot_walk_tests_countP (p : GenTest → Bool) (c : Nat)
    (rt : Nat) (ep : Int)
    (hb : ∀ msg, (blsMsgTests rt ep msg).countP p = if msg.cid = c then 1 else 0)
    (hs : ∀ msg, (secpMsgTests rt ep msg).countP p = if msg.cid = c then 1 else 0)
    (hhead : ∀ block : BlockHeader, ∀ k : Nat, (blockHeadTests block k).countP p = 0)
    (hminer : ∀ block : BlockHeader, ∀ k : Nat, (blockMinerTests block k).countP p = 0)
    (hpre : ∀ k : Nat, p (emit (.chainGetMessagesInTipset k)) = false)
    (hsup : ∀ k : Nat, (tipsetSupplyTests k).countP p = 0)
    (hcall : ∀ (k : Nat) (blocks : List BlockHeader), (stateCallTests k blocks).countP p = 0)
    (hdeal : ∀ ts : TipsetData, (dealTests ts).countP p = 0)
    (chain : List TipsetData) (n : Nat) :
    (snapshot_walk_tests chain n rt ep).countP p
      = if c ∈ windowCids (chain.take n) then 1 else 0 := by
  have h := (walkTipsets_countP p c rt ep hb hs hhead hminer hpre hsup hcall hdeal
    (chain.take n) []).1
  simpa [snapshot_walk_tests] using h

/-- C7: over the whole `n_tipsets`-bounded backward walk, the message-scoped
test group of a message CID is generated exactly once per distinct CID —
measured both by the `ChainGetMessage` lookup that heads every group and by
the group's `StateWaitMsg` test carrying the 30-second timeout override —
namely once if the CID occurs anywhere in the window (even repeatedly,
across blocks or tipsets) and zero times otherwise. The group also carries
the account-key resolutions, the sender id-lookup, the message-search tests
and the filtered message-listing tests, all emitted under the same
first-occurrence guard. -/
theorem snapshot_message_tests_once (chain : List TipsetData) (n_tipsets : Nat)
    (root_tsk : Nat) (shared_epoch : Int) (c : Nat) :
    countReq (snapshot_walk_tests chain n_tipsets root_tsk shared_epoch)
        (ReqId.chainGetMessage c)
      = (if c ∈ windowCids (chain.take n_tipsets) then 1 else 0) ∧
    countP (snapshot_walk_tests chain n_tipsets root_tsk shared_epoch)
        (fun t => t.req == ReqId.stateWaitMsg c 0 && t.timeout_secs == some 30)
      = (if c ∈ windowCids (chain.take n_tipsets) then 1 else 0) := by
  constructor
  · show List.countP _ _ = _
    apply snapshot_walk_tests_countP (fun t => t.req == ReqId.chainGetMessage c) c
    · intro msg
      by_cases h : msg.cid = c <;>
        simp [blsMsgTests, emit, GenTest.markIgnore, GenTest.withTimeout, h]
    · intro msg
      by_cases h : msg.cid = c <;>
        by_cases hp : msg.params.isEmpty <;>
          simp [secpMsgTests, emit, GenTest.markIgnore, GenTest.withTimeout, h, hp]
    · intro block k
      simp [blockHeadTests, emit]
    · intro block k
      simp [blockMinerTests, emit]
    · intro k
      simp [emit]
    · intro k
      simp [tipsetSupplyTests, emit]
    · intro k blocks
      rw [List.countP_eq_zero]
      intro t ht
      simp only [stateCallTests, List.mem_flatten, List.mem_map] at ht
      obtain ⟨l, ⟨block, hblock, rfl⟩, htl⟩ := ht
      rcases List.mem_append.mp htl with h | h <;>
      · obtain ⟨m, hm, rfl⟩ := List.mem_map.mp h
        simp [emit]
    · intro ts
      rw [List.countP_eq_zero]
      intro t ht
      obtain ⟨d, hd, rfl⟩ := List.mem_map.mp ht
      simp [emit]
  · show List.countP _ _ = _
    apply snapshot_walk_tests_countP
      (fun t => t.req == ReqId.stateWaitMsg c 0 && t.timeout_secs == some 30) c
    · intro msg
      by_cases h : msg.cid = c <;>
        simp [blsMsgTests, emit, GenTest.markIgnore, GenTest.withTimeout, h]
    · intro msg
      by_cases h : msg.cid = c <;>
        by_cases hp : msg.params.isEmpty <;>
          simp [secpMsgTests, emit, GenTest.markIgnore, GenTest.withTimeout, h, hp]
    · intro block k
      simp [blockHeadTests, emit]
    · intro block k
      simp [blockMinerTests, emit]
    · intro k
      simp [emit]
    · intro k
      simp [tipsetSupplyTests, emit]
    · intro k blocks
      rw [List.countP_eq_zero]
      intro t ht
      simp only [stateCallTests, List.mem_flatten, List.mem_map] at ht
      obtain ⟨l, ⟨block, hblock, rfl⟩, htl⟩ := ht
      rcases List.mem_append.mp htl with h | h <;>
      · obtain ⟨m, hm, rfl⟩ := List.mem_map.mp h
        simp [emit]
    · intro ts
      rw [List.countP_eq_zero]
      intro t ht
      obtain ⟨d, hd, rfl⟩ := List.mem_map.mp ht
      simp [emit]

end ForestApiCompare
